import Mathlib

/-!
Verification of the configuration-resolution logic of `src/podcastfy/api/fast_app.py`.

The Python module manipulates JSON-like documents (the parsed request body, the
YAML base configuration, and the derived configuration documents).  We embed
those values as the mutual inductive family `PyVal` / `PyList` / `PyDict`:
dictionaries are association lists with string keys (JSON/YAML documents have
string keys) whose insertion order is significant, exactly like Python dicts.
Modelling notes:
* Python floats are modelled as rationals (`Rat`); the only float arithmetic in
  the source, `int(word_count * 0.05)`, is modelled exactly (see `int05`).
* Python exceptions escaping the resolution code are modelled with
  `Except String`; an `Except.error` corresponds to an exception reaching the
  endpoint's catch-all handler.
-/

mutual
inductive PyVal where
  | none
  | bool (b : Bool)
  | int (n : Int)
  | float (q : Rat)
  | str (s : String)
  | list (xs : PyList)
  | dict (d : PyDict)
inductive PyList where
  | nil
  | cons (hd : PyVal) (tl : PyList)
inductive PyDict where
  | nil
  | cons (key : String) (val : PyVal) (tl : PyDict)
end

/-- Build a `PyDict` from a list of key/value pairs (a display helper). -/
def dictOf : List (String × PyVal) → PyDict
  | [] => .nil
  | (k, v) :: r => .cons k v (dictOf r)

/-- Build a `PyList` from a `List PyVal` (a display helper). -/
def listOf : List PyVal → PyList
  | [] => .nil
  | v :: r => .cons v (listOf r)

/-- Python `str.strip()` (whitespace trimming).  `String.trim` is not used
because we need a definition the kernel can evaluate. -/
def pyStrip (s : String) : String :=
  ⟨((s.data.dropWhile Char.isWhitespace).reverse.dropWhile Char.isWhitespace).reverse⟩

/-- Python truthiness (`bool(x)`) for the embedded values. -/
def pyTruthy : PyVal → Bool
  | .none => false
  | .bool b => b
  | .int n => n != 0
  | .float q => q.num != 0
  | .str s => s != ""
  | .list .nil => false
  | .list (.cons _ _) => true
  | .dict .nil => false
  | .dict (.cons _ _ _) => true

/-- Python `a or b` on values. -/
def pyOr (a b : PyVal) : PyVal := if pyTruthy a then a else b

/-- First binding of a key in a dict (Python dicts have unique keys; on
well-formed documents this is the dict lookup). -/
def lookup? : PyDict → String → Option PyVal
  | .nil, _ => Option.none
  | .cons k' v rest, k => if k' = k then some v else lookup? rest k

/-- Python `d[k] = v`: replace the first binding in place, else append. -/
def setKey : PyDict → String → PyVal → PyDict
  | .nil, k, v => .cons k v .nil
  | .cons k' v' rest, k, v =>
    if k' = k then .cons k v rest else .cons k' v' (setKey rest k v)

/-- Python `d.get(k)` (missing key yields `None`). -/
def dget (d : PyDict) (k : String) : PyVal := (lookup? d k).getD .none

/-- Python `d.get(k, default)`. -/
def dgetD (d : PyDict) (k : String) (dflt : PyVal) : PyVal := (lookup? d k).getD dflt

/-- The keys of a dict, in order. -/
def keys : PyDict → List String
  | .nil => []
  | .cons k _ r => k :: keys r

/-- Lookup along a path of keys in nested dicts. -/
def pathLookup : PyVal → List String → Option PyVal
  | v, [] => some v
  | .dict d, k :: ks =>
    match lookup? d k with
    | some v => pathLookup v ks
    | Option.none => Option.none
  | _, _ :: _ => Option.none

/-! Section: `_parse_voice` (fast_app.py lines 45-76) -/

/-- The name branch of `_parse_voice` for dict input (lines 62-65):
`name = value.get("name"); if isinstance(name, str) and name.strip(): return name.strip(); return None`. -/
def parseVoiceName (d : PyDict) : PyVal :=
  match dget d "name" with
  | .str s => if pyStrip s ≠ "" then .str (pyStrip s) else .none
  | _ => .none

/-- Model of `_parse_voice` (lines 45-76).  Returns `.none` for Python `None`. -/
def parseVoice : PyVal → PyVal
  | .none => .none
  | .dict d =>
    match pyOr (dget d "voice_id") (dget d "id") with
    | .str s =>
      if pyStrip s ≠ "" then .dict (.cons "voice_id" (.str (pyStrip s)) .nil)
      else parseVoiceName d
    | _ => parseVoiceName d
  | .str v =>
    let s := pyStrip v
    if s = "" then .none
    else if !(s.data.contains ' ') && s.length ≥ 10 then
      .dict (.cons "voice_id" (.str s) .nil)
    else .str s
  | _ => .none

/-! Section: `_deep_merge` (lines 79-89) -/

mutual
/-- Model of `_deep_merge(a, b)`: iterate over `b`'s items; the stored value for each
key is computed by `mergeVal` (the body of the loop, lines 84-88). -/
def deepMerge : PyDict → PyDict → PyDict
  | out, .nil => out
  | out, .cons k v rest => deepMerge (setKey out k (mergeVal (lookup? out k) v)) rest
/-- Lines 85-88: a dict value merges recursively into a dict value of `out`
(`out.get(k)` is the first argument), anything else replaces. -/
def mergeVal (o : Option PyVal) : PyVal → PyVal
  | .dict bd =>
    match o with
    | some (.dict ad) => .dict (deepMerge ad bd)
    | _ => .dict bd
  | v => v
end

/-! Section: `_strip_empty` (lines 92-109) -/

mutual
/-- Model of `_strip_empty` (lines 92-109).  Note the string case returns the trimmed
string, and containers that become empty strip to `None`. -/
def stripEmpty : PyVal → PyVal
  | .none => .none
  | .bool b => .bool b
  | .int n => .int n
  | .float q => .float q
  | .str s => if pyStrip s = "" then .none else .str (pyStrip s)
  | .list xs =>
    match stripList xs with
    | .nil => .none
    | l => .list l
  | .dict d =>
    match stripDict d with
    | .nil => .none
    | l => .dict l
def stripList : PyList → PyList
  | .nil => .nil
  | .cons x xs =>
    match stripEmpty x with
    | .none => stripList xs
    | cx => .cons cx (stripList xs)
def stripDict : PyDict → PyDict
  | .nil => .nil
  | .cons k v xs =>
    match stripEmpty v with
    | .none => stripDict xs
    | cv => .cons k cv (stripDict xs)
end

/-! Section: `_coerce_int` (lines 112-127) and the pieces of Python float semantics
it relies on -/

/-- Truncation toward zero of a rational, as Python `int(x)` on a float. -/
def ratTrunc (q : Rat) : Int := q.num.sign * Int.ofNat (q.num.natAbs / q.den)

/-- Split a character list at the first `'.'`. -/
def breakDot : List Char → List Char × Option (List Char)
  | [] => ([], Option.none)
  | c :: r =>
    if c = '.' then ([], some r)
    else
      let p := breakDot r
      (c :: p.1, p.2)

/-- Value of a digit string, most significant first. -/
def digitsNat (cs : List Char) : Nat := cs.foldl (fun a c => a * 10 + (c.toNat - 48)) 0

/-- Model of Python `float(s)` restricted to optionally signed decimal
literals (`"12"`, `"-3.5"`, `".7"`, `"2."`), the forms relevant to this
code; other accepted Python forms (exponents, `inf`, `nan`, underscores) are
out of the model.  `Option.none` models `ValueError`. -/
def parseFloat? (s : String) : Option Rat :=
  let t := (pyStrip s).data
  let signed : Int × List Char :=
    match t with
    | '+' :: r => (1, r)
    | '-' :: r => (-1, r)
    | r => (1, r)
  let cs := signed.2
  match breakDot cs with
  | (ip, Option.none) =>
    if ip.isEmpty || !ip.all Char.isDigit then Option.none
    else some (mkRat (signed.1 * (digitsNat ip : Int)) 1)
  | (ip, some fp) =>
    if fp.contains '.' || (ip.isEmpty && fp.isEmpty)
        || !ip.all Char.isDigit || !fp.all Char.isDigit then Option.none
    else
      some (mkRat (signed.1 * ((digitsNat ip * 10 ^ fp.length + digitsNat fp : Nat) : Int))
        (10 ^ fp.length))

/-- Model of Python `float(value)`; `Option.none` models the raised
`TypeError`/`ValueError`. -/
def pyFloat? : PyVal → Option Rat
  | .int n => some (mkRat n 1)
  | .float q => some q
  | .bool b => some (if b then mkRat 1 1 else mkRat 0 1)
  | .str s => parseFloat? s
  | _ => Option.none

/-- Model of `_coerce_int` (lines 112-127).  For lists and dicts, `str(value)` never
parses as a float, so the `except` branch yields `None`. -/
def coerceInt : PyVal → Option Int
  | .none => Option.none
  | .bool _ => Option.none
  | .int n => if n > 0 then some n else Option.none
  | .float q => if ratTrunc q > 0 then some (ratTrunc q) else Option.none
  | .str s =>
    let t := pyStrip s
    if t = "" then Option.none
    else
      match parseFloat? t with
      | some q => if ratTrunc q > 0 then some (ratTrunc q) else Option.none
      | Option.none => Option.none
  | .list _ => Option.none
  | .dict _ => Option.none

/-! Section: `_inject_word_count_instruction` (lines 130-146) -/

/-- Model of Python `int(n * 0.05)` for an int `n`: the double product
`n * 0.05` truncates toward zero to `n / 20` rounded toward zero (exact for
all `|n| < 2 ^ 51`, since `0.05` as a double exceeds `1/20` by less than
`2 ^ -55` relative error). -/
def int05 (n : Int) : Int := n.sign * Int.ofNat (n.natAbs / 20)

/-- The instruction sentence built by `_inject_word_count_instruction`
(lines 136-142): exact-count phrasing when strict, band phrasing otherwise. -/
def wcLine (word_count : Int) (strict : Bool) : String :=
  if strict then "Schreibe exakt " ++ toString word_count ++ " Wörter."
  else
    let d := max 10 (int05 word_count)
    "Zielumfang: " ++ toString (max 1 (word_count - d)) ++ " bis "
      ++ toString (word_count + d) ++ " Wörter."

/-- Model of `_inject_word_count_instruction` (lines 130-146). -/
def injectWordCount (user_instructions : Option String) (word_count : Option Int)
    (strict : Bool) : String :=
  let base := pyStrip (user_instructions.getD "")
  match word_count with
  | Option.none => base
  | some wc =>
    if wc = 0 then base
    else if base = "" then wcLine wc strict else base ++ "\n" ++ wcLine wc strict

/-! Section: the resolution pipeline of `generate_podcast_endpoint` (lines 166-241).

Each local of the endpoint body becomes a definition.  Values that Python
computes once and reuses are recomputed here; all definitions are pure, so the
results agree.  `Except.error` models an exception reaching the endpoint's
`except` handler (e.g. `.get` on a truthy non-mapping, `float()` on a
non-numeric value). -/

/-- Evaluate `x or {}` in a context that then calls `.get` on (or splats) the
result: a dict passes through, a falsy value becomes `{}`, and a truthy
non-dict raises (`AttributeError`/`TypeError`). -/
def asDictOr : PyVal → Except String PyDict
  | .dict d => .ok d
  | v => if pyTruthy v then .error "not a mapping" else .ok .nil

/-- Lines 168-172: `output_language`. -/
def output_languageR (base data : PyDict) : PyVal :=
  pyOr (pyOr (dget data "output_language") (dget data "language"))
    (dgetD base "output_language" (.str "English"))

/-- Line 175: `word_count`. -/
def wordCountR (data : PyDict) : Option Int :=
  coerceInt (pyOr (pyOr (dget data "word_count") (dget data "target_words"))
    (dget data "target_word_count"))

/-- Line 176: `word_count_strict`. -/
def wordCountStrictR (data : PyDict) : Bool :=
  pyTruthy (dgetD data "word_count_strict" (.bool false))

/-- Lines 181, 185: `base_config.get("text_to_speech", {}) or {}`. -/
def ttsRootE (base : PyDict) : Except String PyDict :=
  asDictOr (dgetD base "text_to_speech" (.dict .nil))

/-- Lines 179-182: `tts_model`.  Modelling restriction: a non-string
`tts_model` would be used as a (non-JSON) dict key in `convo_override`; our
documents have string keys, so that case is flagged as out of the model. -/
def ttsModelE (base data : PyDict) : Except String String := do
  let tts_root ← ttsRootE base
  match dgetD data "tts_model" (dgetD tts_root "default_tts_model" (.str "openai")) with
  | .str s => Except.ok s
  | _ => Except.error "tts_model is not a string (model restriction)"

/-- Line 186: `tts_model_cfg = (tts_root.get(tts_model, {}) or {})`. -/
def ttsModelCfgE (base data : PyDict) : Except String PyDict := do
  let tts_root ← ttsRootE base
  let e ← ttsModelE base data
  asDictOr (dgetD tts_root e (.dict .nil))

/-- Line 188: `voices_in = data.get("voices", {}) or {}`. -/
def voicesInE (data : PyDict) : Except String PyDict :=
  asDictOr (dgetD data "voices" (.dict .nil))

/-- Line 189: `default_voices = (tts_model_cfg.get("default_voices", {}) or {})`. -/
def defaultVoicesE (base data : PyDict) : Except String PyDict := do
  let cfg ← ttsModelCfgE base data
  asDictOr (dgetD cfg "default_voices" (.dict .nil))

/-- Line 191: `q_voice`. -/
def qVoiceE (base data : PyDict) : Except String PyVal := do
  let vin ← voicesInE data
  let dv ← defaultVoicesE base data
  Except.ok (pyOr (parseVoice (dget vin "question")) (parseVoice (dget dv "question")))

/-- Line 192: `a_voice`. -/
def aVoiceE (base data : PyDict) : Except String PyVal := do
  let vin ← voicesInE data
  let dv ← defaultVoicesE base data
  Except.ok (pyOr (parseVoice (dget vin "answer")) (parseVoice (dget dv "answer")))

/-- Line 195: `user_instr_in`. -/
def uiValR (base data : PyDict) : PyVal :=
  pyOr (dget data "user_instructions") (dgetD base "user_instructions" (.str ""))

/-- Value of `user_instr_in` as the `Optional[str]` consumed by
`_inject_word_count_instruction`: a string passes through, a falsy value acts
as `None` (`x or ""` yields `""` either way), a truthy non-string raises
(`.strip()` on a non-string). -/
def uiOptE (base data : PyDict) : Except String (Option String) :=
  match uiValR base data with
  | .str s => Except.ok (some s)
  | v => if pyTruthy v then Except.error "user_instructions is not a string" else Except.ok Option.none

/-- Line 196: `user_instructions`. -/
def userInstructionsE (base data : PyDict) : Except String String := do
  let u ← uiOptE base data
  Except.ok (injectWordCount u (wordCountR data) (wordCountStrictR data))

/-- Line 204: `float(data.get("creativity", base_config.get("creativity", 0.7)))`
(the argument before conversion). -/
def creativityValR (base data : PyDict) : PyVal :=
  dgetD data "creativity" (dgetD base "creativity" (.float (mkRat 7 10)))

/-- Line 204: the converted creativity; `float()` failure is an exception. -/
def creativityE (base data : PyDict) : Except String Rat :=
  match pyFloat? (creativityValR base data) with
  | some q => Except.ok q
  | Option.none => Except.error "creativity is not numeric"

/-- Lines 199-224: `convo_override`.  The inner `text_to_speech` dict literal
`{"default_tts_model": tts_model, tts_model: {...}}` is built with `setKey`
so that a colliding `tts_model` key overwrites in place, as in Python; the
engine sub-dict `{**tts_model_cfg, "default_voices": {...}}` likewise. -/
def convoOverrideDict (base data : PyDict) (e : String) (cfg : PyDict)
    (q_voice a_voice : PyVal) (user_instructions : String) (creativity : Rat) : PyDict :=
  dictOf [
    ("podcast_name",
      pyOr (pyOr (dget data "name") (dget data "podcast_name")) (dget base "podcast_name")),
    ("podcast_tagline", pyOr (dget data "tagline") (dget base "podcast_tagline")),
    ("output_language", output_languageR base data),
    ("user_instructions", .str user_instructions),
    ("creativity", .float creativity),
    ("conversation_style",
      dgetD data "conversation_style" (dgetD base "conversation_style" (.list .nil))),
    ("roles_person1", dgetD data "roles_person1" (dget base "roles_person1")),
    ("roles_person2", dgetD data "roles_person2" (dget base "roles_person2")),
    ("dialogue_structure",
      dgetD data "dialogue_structure" (dgetD base "dialogue_structure" (.list .nil))),
    ("engagement_techniques",
      dgetD data "engagement_techniques" (dgetD base "engagement_techniques" (.list .nil))),
    ("target_word_count",
      match wordCountR data with
      | some n => .int n
      | Option.none => .none),
    ("text_to_speech", .dict (setKey (.cons "default_tts_model" (.str e) .nil) e
      (.dict (setKey cfg "default_voices"
        (.dict (.cons "question" q_voice (.cons "answer" a_voice .nil)))))))]

/-- Lines 199-224: `convo_override` (see `convoOverrideDict` for the literal). -/
def convoOverrideE (base data : PyDict) : Except String PyDict := do
  let e ← ttsModelE base data
  let cfg ← ttsModelCfgE base data
  let q_voice ← qVoiceE base data
  let a_voice ← aVoiceE base data
  let user_instructions ← userInstructionsE base data
  let creativity ← creativityE base data
  Except.ok (convoOverrideDict base data e cfg q_voice a_voice user_instructions creativity)

/-- Lines 226-227: `conversation_config = _deep_merge(base_config, convo_override)`
then `conversation_config = _strip_empty(conversation_config) or conversation_config`. -/
def convoE (base data : PyDict) : Except String PyVal := do
  let ov ← convoOverrideE base data
  let merged := deepMerge base ov
  Except.ok (pyOr (stripEmpty (.dict merged)) (.dict merged))

/-- Lines 230-240: the `gp_kwargs` dict literal before stripping. -/
def gpDict (data : PyDict) (convo : PyVal) (e : String) : PyDict := dictOf [
  ("urls", dget data "urls"),
  ("url_file", dget data "url_file"),
  ("transcript_file", dget data "transcript_file"),
  ("image_paths", dget data "image_paths"),
  ("text", dget data "text"),
  ("topic", dget data "topic"),
  ("conversation_config", convo),
  ("tts_model", .str e),
  ("longform", .bool (pyTruthy (dgetD data "is_long_form" (.bool false))))]

/-- Lines 230-241: `gp_kwargs`, then `gp_kwargs = _strip_empty(gp_kwargs) or {}`. -/
def resolveGpE (base data : PyDict) : Except String PyDict := do
  let convo ← convoE base data
  let e ← ttsModelE base data
  Except.ok
    (match stripEmpty (.dict (gpDict data convo e)) with
     | .dict d => d
     | _ => .nil)

/-- The six content selectors forwarded to `generate_podcast`. -/
def contentSelectorNames : List String :=
  ["urls", "url_file", "transcript_file", "image_paths", "text", "topic"]

/-- Modelled from the spec: the downstream `generate_podcast` function lives in
`podcastfy/client.py`, which is not under `src/`; per the spec it "signals an
input-validation failure only when neither a text payload, topic, URL set,
transcript reference, nor image-path set is present in the request (downstream
has nothing to generate from)".  After `_strip_empty`, a key is present in
`gp_kwargs` exactly when its value is non-empty, so the validation failure is
modelled as: none of the six selector keys survives into `gp_kwargs`. -/
def specValidationFails (kw : PyDict) : Bool :=
  (lookup? kw "urls").isNone && (lookup? kw "url_file").isNone
    && (lookup? kw "transcript_file").isNone && (lookup? kw "image_paths").isNone
    && (lookup? kw "text").isNone && (lookup? kw "topic").isNone

/-- Whether a request run against a base configuration ends in the (spec-modelled)
input-validation failure of `generate_podcast`; an earlier exception in the
resolution itself is a different error, not the validation failure. -/
def signalsInputValidation (base data : PyDict) : Bool :=
  match resolveGpE base data with
  | .ok kw => specValidationFails kw
  | .error _ => false

/-! Section: predicates used to state the claims -/

/-- Whether an `Except` computation succeeded. -/
def exceptOk {ε α : Type} : Except ε α → Bool
  | .ok _ => true
  | .error _ => false

/-- Keys of a dict are pairwise distinct (true of every Python dict). -/
def nodupKeys : PyDict → Bool
  | .nil => true
  | .cons k _ r => decide (k ∉ keys r) && nodupKeys r

mutual
/-- A well-formed document: every dict in it has pairwise-distinct keys.
Every value produced by parsing JSON or YAML satisfies this. -/
def pyWF : PyVal → Bool
  | .list xs => pyWFList xs
  | .dict d => nodupKeys d && pyWFDict d
  | _ => true
def pyWFList : PyList → Bool
  | .nil => true
  | .cons x xs => pyWF x && pyWFList xs
def pyWFDict : PyDict → Bool
  | .nil => true
  | .cons _ v r => pyWF v && pyWFDict r
end

mutual
/-- A value `_strip_empty` may keep: not `None`, and with no `None`, empty
string, empty list or empty dict anywhere inside. -/
def survivor : PyVal → Bool
  | .none => false
  | .bool _ => true
  | .int _ => true
  | .float _ => true
  | .str s => s != ""
  | .list .nil => false
  | .list (.cons x xs) => survivor x && survivorList xs
  | .dict .nil => false
  | .dict (.cons _ v r) => survivor v && survivorDict r
def survivorList : PyList → Bool
  | .nil => true
  | .cons x xs => survivor x && survivorList xs
def survivorDict : PyDict → Bool
  | .nil => true
  | .cons _ v r => survivor v && survivorDict r
end

/-- The fate of a single value under `_strip_empty` inside a container:
dropped (`Option.none`) or kept as its stripped form. -/
def keepStrip (v : PyVal) : Option PyVal :=
  match stripEmpty v with
  | .none => Option.none
  | w => some w

/-- All values of a dict satisfy a predicate. -/
def dictAllVals : PyDict → (PyVal → Bool) → Bool
  | .nil, _ => true
  | .cons _ v r, p => p v && dictAllVals r p

/-- The `default_voices` entry of an engine configuration is a dict, falsy, or
absent — the shapes on which line 189 does not raise. -/
def dvOkB (cfg : PyDict) : Bool :=
  match lookup? cfg "default_voices" with
  | some (.dict _) => true
  | some w => !pyTruthy w
  | Option.none => true

/-- An engine entry of `base.text_to_speech` that the pipeline can consume:
a dict with a well-shaped `default_voices`, or a falsy value. -/
def engineCfgOkB : PyVal → Bool
  | .dict cfg => dvOkB cfg
  | v => !pyTruthy v

/-- A well-shaped base configuration: the shapes under which no operation of
the resolution raises.  This is satisfied by the empty document (the fallback
when the YAML file cannot be read) and by any ordinary YAML configuration. -/
def baseOkB (base : PyDict) : Bool :=
  (match lookup? base "text_to_speech" with
   | some (.dict bt) =>
     (match lookup? bt "default_tts_model" with
      | some (.str _) => true
      | some _ => false
      | Option.none => true)
     && dictAllVals bt engineCfgOkB
   | some v => !pyTruthy v
   | Option.none => true)
  && (match lookup? base "user_instructions" with
      | some (.str _) => true
      | some v => !pyTruthy v
      | Option.none => true)
  && (match lookup? base "creativity" with
      | some v => (pyFloat? v).isSome
      | Option.none => true)

/-- Every key of the request is one of the six content selectors: the request
"merely omits" all other optional fields. -/
def onlySelectorsB (data : PyDict) : Bool :=
  (keys data).all (fun k => decide (k ∈ contentSelectorNames))

/-! Section: lemmas on association-list dictionaries -/

theorem lookup?_setKey_self : ∀ (d : PyDict) (k : String) (v : PyVal),
    lookup? (setKey d k v) k = some v
  | .nil, k, v => by simp [setKey, lookup?]
  | .cons k' v' rest, k, v => by
    by_cases h : k' = k
    · simp [setKey, h, lookup?]
    · simp [setKey, h, lookup?, lookup?_setKey_self rest k v]

theorem lookup?_setKey_ne : ∀ (d : PyDict) {k k' : String} (v : PyVal), k' ≠ k →
    lookup? (setKey d k' v) k = lookup? d k
  | .nil, k, k', v, h => by simp [setKey, lookup?, h]
  | .cons a b rest, k, k', v, h => by
    by_cases hak : a = k'
    · subst hak
      simp [setKey, lookup?, h]
    · simp [setKey, hak, lookup?, lookup?_setKey_ne rest v h]

theorem setKey_eq_of_lookup? : ∀ {d : PyDict} {k : String} {v : PyVal},
    lookup? d k = some v → setKey d k v = d
  | .nil, k, v, h => by simp [lookup?] at h
  | .cons a b rest, k, v, h => by
    by_cases hak : a = k
    · subst hak
      simp [lookup?] at h
      simp [setKey, h]
    · simp [lookup?, hak] at h
      simp [setKey, hak, setKey_eq_of_lookup? h]

theorem mem_keys_of_lookup? : ∀ {d : PyDict} {k : String} {v : PyVal},
    lookup? d k = some v → k ∈ keys d
  | .nil, k, v, h => by simp [lookup?] at h
  | .cons a b rest, k, v, h => by
    by_cases hak : a = k
    · simp [keys, hak]
    · simp [lookup?, hak] at h
      simp [keys, mem_keys_of_lookup? h]

theorem lookup?_eq_none_of_not_mem : ∀ {d : PyDict} {k : String},
    k ∉ keys d → lookup? d k = Option.none
  | .nil, k, _ => rfl
  | .cons a b rest, k, h => by
    simp [keys] at h
    simp [lookup?, Ne.symm h.1, lookup?_eq_none_of_not_mem h.2]

theorem sizeOf_lookup? : ∀ {d : PyDict} {k : String} {v : PyVal},
    lookup? d k = some v → sizeOf v < sizeOf d
  | .nil, k, v, h => by simp [lookup?] at h
  | .cons a b rest, k, v, h => by
    by_cases hak : a = k
    · subst hak
      simp [lookup?] at h
      subst h
      simp
      omega
    · simp [lookup?, hak] at h
      have := sizeOf_lookup? h
      simp
      omega

theorem mem_keys_setKey : ∀ {d : PyDict} {k k' : String} {v : PyVal},
    k' ∈ keys (setKey d k v) → k' ∈ keys d ∨ k' = k
  | .nil, k, k', v, h => by simpa [setKey, keys] using h
  | .cons a b rest, k, k', v, h => by
    by_cases hak : a = k
    · subst hak
      simp [setKey, keys] at h ⊢
      tauto
    · simp [setKey, hak, keys] at h ⊢
      rcases h with h | h
      · tauto
      · rcases mem_keys_setKey h with h' | h' <;> tauto

theorem nodupKeys_setKey : ∀ {d : PyDict}, nodupKeys d = true → ∀ (k : String) (v : PyVal),
    nodupKeys (setKey d k v) = true
  | .nil, _, k, v => by simp [setKey, nodupKeys, keys]
  | .cons a b rest, h, k, v => by
    simp [nodupKeys] at h
    by_cases hak : a = k
    · subst hak
      simp [setKey, nodupKeys, h.1, h.2]
    · simp [setKey, hak, nodupKeys]
      refine ⟨fun hmem => ?_, nodupKeys_setKey h.2 k v⟩
      rcases mem_keys_setKey hmem with h' | h'
      · exact h.1 h'
      · exact hak h'

/-! Section: lemmas on `_deep_merge` -/

theorem deepMerge_cons (out : PyDict) (k : String) (v : PyVal) (rest : PyDict) :
    deepMerge out (.cons k v rest)
      = deepMerge (setKey out k (mergeVal (lookup? out k) v)) rest := rfl

theorem mergeVal_none : ∀ (v : PyVal), mergeVal Option.none v = v := by
  intro v
  cases v <;> rfl

theorem mergeVal_some_str (s : String) : ∀ (v : PyVal), mergeVal (some (.str s)) v = v := by
  intro v
  cases v <;> rfl

theorem mergeVal_str_right (o : Option PyVal) (s : String) :
    mergeVal o (.str s) = .str s := rfl

theorem mergeVal_dict_dict (ad bd : PyDict) :
    mergeVal (some (.dict ad)) (.dict bd) = .dict (deepMerge ad bd) := rfl

theorem mergeVal_dict_cases (o : Option PyVal) (bd : PyDict) :
    mergeVal o (.dict bd) = .dict bd
      ∨ ∃ ad, o = some (.dict ad) ∧ mergeVal o (.dict bd) = .dict (deepMerge ad bd) := by
  match o with
  | Option.none => exact Or.inl rfl
  | some .none => exact Or.inl rfl
  | some (.bool _) => exact Or.inl rfl
  | some (.int _) => exact Or.inl rfl
  | some (.float _) => exact Or.inl rfl
  | some (.str _) => exact Or.inl rfl
  | some (.list _) => exact Or.inl rfl
  | some (.dict ad) => exact Or.inr ⟨ad, rfl, rfl⟩

theorem nodupKeys_deepMerge : ∀ (b : PyDict) {a : PyDict}, nodupKeys a = true →
    nodupKeys (deepMerge a b) = true
  | .nil, a, h => h
  | .cons k v rest, a, h => by
    rw [deepMerge_cons]
    exact nodupKeys_deepMerge rest (nodupKeys_setKey h k (mergeVal (lookup? a k) v))

theorem lookup?_deepMerge_not_mem : ∀ (b : PyDict) {k : String}, k ∉ keys b →
    ∀ (a : PyDict), lookup? (deepMerge a b) k = lookup? a k
  | .nil, k, _, a => rfl
  | .cons k' v rest, k, h, a => by
    simp [keys] at h
    rw [deepMerge_cons, lookup?_deepMerge_not_mem rest h.2,
      lookup?_setKey_ne a (mergeVal (lookup? a k') v) (Ne.symm h.1)]

theorem lookup?_deepMerge : ∀ (b : PyDict) {k : String} {v : PyVal},
    nodupKeys b = true → lookup? b k = some v →
    ∀ (a : PyDict), lookup? (deepMerge a b) k = some (mergeVal (lookup? a k) v)
  | .nil, k, v, _, hb, a => by simp [lookup?] at hb
  | .cons k' v' rest, k, v, hnd, hb, a => by
    simp [nodupKeys] at hnd
    by_cases hkk : k' = k
    · subst hkk
      simp [lookup?] at hb
      subst hb
      rw [deepMerge_cons, lookup?_deepMerge_not_mem rest hnd.1, lookup?_setKey_self]
    · simp [lookup?, hkk] at hb
      rw [deepMerge_cons, lookup?_deepMerge rest hnd.2 hb,
        lookup?_setKey_ne a (mergeVal (lookup? a k') v') hkk]

theorem deepMerge_eq_self : ∀ (b : PyDict) {out : PyDict}, nodupKeys b = true →
    (∀ k v, lookup? b k = some v → setKey out k (mergeVal (lookup? out k) v) = out) →
    deepMerge out b = out
  | .nil, out, _, _ => rfl
  | .cons k' v' rest, out, hnd, h => by
    simp [nodupKeys] at hnd
    have h1 : setKey out k' (mergeVal (lookup? out k') v') = out := by
      apply h k' v'
      simp [lookup?]
    rw [deepMerge_cons, h1]
    apply deepMerge_eq_self rest hnd.2
    intro k v hv
    apply h k v
    have hk : k ≠ k' := by
      intro hkk
      subst hkk
      exact hnd.1 (mem_keys_of_lookup? hv)
    simp [lookup?, Ne.symm hk, hv]

theorem pyWF_dict_elim {d : PyDict} (h : pyWF (.dict d) = true) :
    nodupKeys d = true ∧ pyWFDict d = true := by
  simpa [pyWF, Bool.and_eq_true] using h

theorem pyWFDict_lookup : ∀ {d : PyDict} {k : String} {v : PyVal},
    pyWFDict d = true → lookup? d k = some v → pyWF v = true
  | .nil, k, v, _, hl => by simp [lookup?] at hl
  | .cons a b rest, k, v, h, hl => by
    simp [pyWFDict] at h
    by_cases hak : a = k
    · subst hak
      simp [lookup?] at hl
      subst hl
      exact h.1
    · simp [lookup?, hak] at hl
      exact pyWFDict_lookup h.2 hl

theorem pyWF_dict_lookup {d : PyDict} {k : String} {v : PyVal}
    (h : pyWF (.dict d) = true) (hl : lookup? d k = some v) : pyWF v = true :=
  pyWFDict_lookup (pyWF_dict_elim h).2 hl

theorem deepMerge_self (d : PyDict) (h : pyWF (.dict d) = true) : deepMerge d d = d := by
  obtain ⟨hnd, hvals⟩ := pyWF_dict_elim h
  apply deepMerge_eq_self d hnd
  intro k v hv
  have hl : mergeVal (some v) v = v := by
    cases v with
    | dict vd =>
      have hrec : deepMerge vd vd = vd :=
        deepMerge_self vd (pyWFDict_lookup hvals hv)
      simp [mergeVal, hrec]
    | none => rfl
    | bool b => rfl
    | int n => rfl
    | float q => rfl
    | str s => rfl
    | list xs => rfl
  rw [hv, hl]
  exact setKey_eq_of_lookup? hv
termination_by sizeOf d
decreasing_by
  have h1 : sizeOf (PyVal.dict vd) < sizeOf d := sizeOf_lookup? hv
  simp at h1
  omega

theorem deepMerge_idem (a b : PyDict) (h : pyWF (.dict b) = true) :
    deepMerge (deepMerge a b) b = deepMerge a b := by
  obtain ⟨hnd, hvals⟩ := pyWF_dict_elim h
  apply deepMerge_eq_self b hnd
  intro k v hv
  have hM : lookup? (deepMerge a b) k = some (mergeVal (lookup? a k) v) :=
    lookup?_deepMerge b hnd hv a
  have key : mergeVal (some (mergeVal (lookup? a k) v)) v = mergeVal (lookup? a k) v := by
    cases v with
    | dict bd =>
      have hwf : pyWF (.dict bd) = true := pyWFDict_lookup hvals hv
      rcases mergeVal_dict_cases (lookup? a k) bd with h' | ⟨ad, _, h'⟩
      · rw [h']
        simp [mergeVal, deepMerge_self bd hwf]
      · rw [h']
        have hrec : deepMerge (deepMerge ad bd) bd = deepMerge ad bd := deepMerge_idem ad bd hwf
        simp [mergeVal, hrec]
    | none => rfl
    | bool b => rfl
    | int n => rfl
    | float q => rfl
    | str s => rfl
    | list xs => rfl
  rw [hM, key]
  exact setKey_eq_of_lookup? hM
termination_by sizeOf b
decreasing_by
  all_goals {
    have h1 : sizeOf (PyVal.dict bd) < sizeOf b := sizeOf_lookup? hv
    simp at h1
    omega }

/-! Section: lemmas on `_strip_empty` -/

theorem stripEmpty_dict (d : PyDict) :
    stripEmpty (.dict d) = match stripDict d with
      | .nil => PyVal.none
      | l => .dict l := rfl

theorem stripDict_cons (k : String) (v : PyVal) (rest : PyDict) :
    stripDict (.cons k v rest) = match keepStrip v with
      | Option.none => stripDict rest
      | some w => .cons k w (stripDict rest) := by
  unfold keepStrip
  simp only [stripDict]
  cases h : stripEmpty v <;> rfl

theorem keys_stripDict_subset : ∀ {d : PyDict} {k : String},
    k ∈ keys (stripDict d) → k ∈ keys d
  | .nil, k, h => h
  | .cons a v rest, k, h => by
    rw [stripDict_cons] at h
    cases hk : keepStrip v with
    | none =>
      rw [hk] at h
      simp [keys]
      exact Or.inr (keys_stripDict_subset h)
    | some w =>
      rw [hk] at h
      simp [keys] at h ⊢
      rcases h with h | h
      · exact Or.inl h
      · exact Or.inr (keys_stripDict_subset h)

theorem lookup?_stripDict : ∀ {d : PyDict}, nodupKeys d = true → ∀ (k : String),
    lookup? (stripDict d) k = (lookup? d k).bind keepStrip
  | .nil, _, k => rfl
  | .cons a v rest, hnd, k => by
    simp [nodupKeys] at hnd
    rw [stripDict_cons]
    cases hk : keepStrip v with
    | none =>
      by_cases hak : a = k
      · subst hak
        have h1 : lookup? (stripDict rest) a = Option.none := by
          apply lookup?_eq_none_of_not_mem
          intro hmem
          exact hnd.1 (keys_stripDict_subset hmem)
        simp [lookup?, h1, hk]
      · simp [lookup?, hak, lookup?_stripDict hnd.2 k]
    | some w =>
      by_cases hak : a = k
      · subst hak
        simp [lookup?, hk]
      · simp [lookup?, hak, lookup?_stripDict hnd.2 k]

theorem keepStrip_eq_none {v : PyVal} :
    keepStrip v = Option.none ↔ stripEmpty v = PyVal.none := by
  unfold keepStrip
  cases h : stripEmpty v <;> simp

theorem keepStrip_dict_of_lookup {M : PyDict} {k : String} {w : PyVal}
    (h : lookup? (stripDict M) k = some w) :
    keepStrip (.dict M) = some (.dict (stripDict M)) := by
  unfold keepStrip
  rw [stripEmpty_dict]
  cases hd : stripDict M with
  | nil => rw [hd] at h; simp [lookup?] at h
  | cons a b c => rfl

theorem keepStrip_str {s : String} (ht : pyStrip s = s) (hne : s ≠ "") :
    keepStrip (.str s) = some (.str s) := by
  unfold keepStrip
  simp [stripEmpty, ht, hne]

theorem path_stripDict {M : PyDict} (hnd : nodupKeys M = true) {k : String} {v w : PyVal}
    (hv : lookup? M k = some v) (hw : keepStrip v = some w) (ks : List String) :
    pathLookup (.dict (stripDict M)) (k :: ks) = pathLookup w ks := by
  have hstrip : lookup? (stripDict M) k = some w := by
    rw [lookup?_stripDict hnd k, hv]
    simpa using hw
  simp [pathLookup, hstrip]

theorem strip_pyOr_path {M : PyDict} (hnd : nodupKeys M = true) {k : String} {v w : PyVal}
    (hv : lookup? M k = some v) (hw : keepStrip v = some w) (ks : List String) :
    pathLookup (pyOr (stripEmpty (.dict M)) (.dict M)) (k :: ks) = pathLookup w ks := by
  have hstrip : lookup? (stripDict M) k = some w := by
    rw [lookup?_stripDict hnd k, hv]
    simpa using hw
  rw [stripEmpty_dict]
  cases hd : stripDict M with
  | nil => rw [hd] at hstrip; simp [lookup?] at hstrip
  | cons a b c =>
    rw [hd] at hstrip
    simp [pyOr, pyTruthy, pathLookup, hstrip]

mutual
theorem stripEmpty_no_empties : ∀ (x : PyVal),
    stripEmpty x = PyVal.none ∨ survivor (stripEmpty x) = true
  | .none => Or.inl rfl
  | .bool b => Or.inr rfl
  | .int n => Or.inr rfl
  | .float q => Or.inr rfl
  | .str s => by
    by_cases h : pyStrip s = ""
    · exact Or.inl (by simp [stripEmpty, h])
    · refine Or.inr ?_
      simp [stripEmpty, h, survivor]
  | .list xs => by
    cases hl : stripList xs with
    | nil => exact Or.inl (by simp [stripEmpty, hl])
    | cons a b =>
      refine Or.inr ?_
      have hs := stripList_no_empties xs
      rw [hl] at hs
      simp only [stripEmpty, hl]
      simp only [survivorList] at hs
      simpa [survivor] using hs
  | .dict d => by
    cases hl : stripDict d with
    | nil => exact Or.inl (by simp [stripEmpty, hl])
    | cons a b c =>
      refine Or.inr ?_
      have hs := stripDict_no_empties d
      rw [hl] at hs
      simp only [stripEmpty, hl]
      simp only [survivorDict] at hs
      simpa [survivor] using hs
theorem stripList_no_empties : ∀ (xs : PyList), survivorList (stripList xs) = true
  | .nil => rfl
  | .cons x r => by
    rcases stripEmpty_no_empties x with h | h
    · simp only [stripList, h]
      exact stripList_no_empties r
    · cases hx : stripEmpty x
      case none => rw [hx] at h; simp [survivor] at h
      all_goals rw [hx] at h
      all_goals simp only [stripList, hx, survivorList]
      all_goals simp [h, stripList_no_empties r]
theorem stripDict_no_empties : ∀ (d : PyDict), survivorDict (stripDict d) = true
  | .nil => rfl
  | .cons k v r => by
    rcases stripEmpty_no_empties v with h | h
    · simp only [stripDict, h]
      exact stripDict_no_empties r
    · cases hx : stripEmpty v
      case none => rw [hx] at h; simp [survivor] at h
      all_goals rw [hx] at h
      all_goals simp only [stripDict, hx, survivorDict]
      all_goals simp [h, stripDict_no_empties r]
end

/-! Section: lemmas destructuring the pipeline -/

theorem exceptBind_ok_elim {ε α β : Type} {x : Except ε α} {f : α → Except ε β} {b : β}
    (h : (x >>= f) = .ok b) : ∃ a, x = .ok a ∧ f a = .ok b := by
  cases x with
  | error e => simp [Bind.bind, Except.bind] at h
  | ok a => exact ⟨a, rfl, by simpa [Bind.bind, Except.bind] using h⟩

theorem convoOverrideE_ok_elim {base data ov : PyDict}
    (h : convoOverrideE base data = .ok ov) :
    ∃ e cfg qv av ui c,
      ttsModelE base data = Except.ok e ∧ ttsModelCfgE base data = Except.ok cfg
      ∧ qVoiceE base data = Except.ok qv ∧ aVoiceE base data = Except.ok av
      ∧ userInstructionsE base data = Except.ok ui ∧ creativityE base data = Except.ok c
      ∧ ov = convoOverrideDict base data e cfg qv av ui c := by
  unfold convoOverrideE at h
  obtain ⟨e, he, h⟩ := exceptBind_ok_elim h
  obtain ⟨cfg, hcfg, h⟩ := exceptBind_ok_elim h
  obtain ⟨qv, hq, h⟩ := exceptBind_ok_elim h
  obtain ⟨av, ha, h⟩ := exceptBind_ok_elim h
  obtain ⟨ui, hui, h⟩ := exceptBind_ok_elim h
  obtain ⟨c, hc, h⟩ := exceptBind_ok_elim h
  simp only [Except.ok.injEq] at h
  exact ⟨e, cfg, qv, av, ui, c, he, hcfg, hq, ha, hui, hc, h.symm⟩

theorem convoE_ok_elim {base data : PyDict} {C : PyVal}
    (h : convoE base data = .ok C) :
    ∃ ov, convoOverrideE base data = .ok ov
      ∧ C = pyOr (stripEmpty (.dict (deepMerge base ov))) (.dict (deepMerge base ov)) := by
  unfold convoE at h
  obtain ⟨ov, hov, h⟩ := exceptBind_ok_elim h
  simp only [Except.ok.injEq] at h
  exact ⟨ov, hov, h.symm⟩

theorem pathLookup_nil (v : PyVal) : pathLookup v [] = some v := by
  cases v <;> rfl

theorem parseVoice_str_keep (s : String) (ht : pyStrip s = s) (hne : s ≠ "") :
    keepStrip (parseVoice (.str s)) = some (parseVoice (.str s))
    ∧ parseVoice (.str s) ≠ PyVal.none := by
  simp only [parseVoice, ht]
  rw [if_neg hne]
  split
  · constructor
    · simp [keepStrip, stripEmpty, stripDict, ht, hne]
    · simp
  · constructor
    · exact keepStrip_str ht hne
    · simp [hne]

theorem asDictOr_falsy {v : PyVal} (h : pyTruthy v = false) : asDictOr v = .ok .nil := by
  cases v with
  | dict d =>
    cases d with
    | nil => rfl
    | cons a b c => simp [pyTruthy] at h
  | none => rfl
  | bool b => simp [asDictOr, h]
  | int n => simp [asDictOr, h]
  | float q => simp [asDictOr, h]
  | str s => simp [asDictOr, h]
  | list xs => simp [asDictOr, h]

theorem dictAllVals_lookup : ∀ {d : PyDict} {p : PyVal → Bool} {k : String} {v : PyVal},
    dictAllVals d p = true → lookup? d k = some v → p v = true
  | .nil, p, k, v, _, hl => by simp [lookup?] at hl
  | .cons a b rest, p, k, v, h, hl => by
    simp [dictAllVals] at h
    by_cases hak : a = k
    · subst hak
      simp [lookup?] at hl
      subst hl
      exact h.1
    · simp [lookup?, hak] at hl
      exact dictAllVals_lookup h.2 hl

theorem onlySelectors_lookup {data : PyDict} (hd : onlySelectorsB data = true)
    {k : String} (hk : ¬ k ∈ contentSelectorNames) : lookup? data k = Option.none := by
  cases hl : lookup? data k with
  | none => rfl
  | some v =>
    have hm := mem_keys_of_lookup? hl
    unfold onlySelectorsB at hd
    rw [List.all_eq_true] at hd
    have h2 := hd k hm
    simp at h2
    exact absurd h2 hk

theorem resolveGpE_ok_elim {base data kw : PyDict}
    (h : resolveGpE base data = .ok kw) :
    ∃ convo e, convoE base data = .ok convo ∧ ttsModelE base data = .ok e
      ∧ kw = (match stripEmpty (.dict (gpDict data convo e)) with
              | .dict d => d
              | _ => .nil) := by
  unfold resolveGpE at h
  obtain ⟨convo, hconvo, h⟩ := exceptBind_ok_elim h
  obtain ⟨e, he, h⟩ := exceptBind_ok_elim h
  simp only [Except.ok.injEq] at h
  exact ⟨convo, e, hconvo, he, h.symm⟩

theorem resolveGpE_ok_of {base data : PyDict}
    (hb : baseOkB base = true) (hd : onlySelectorsB data = true) :
    exceptOk (resolveGpE base data) = true := by
  rw [baseOkB] at hb
  simp only [Bool.and_eq_true] at hb
  obtain ⟨⟨hb1, hb2⟩, hb3⟩ := hb
  -- the tts root is a dict with well-shaped entries
  obtain ⟨tr, htr, hdtm, hall⟩ : ∃ tr, ttsRootE base = .ok tr
      ∧ (match lookup? tr "default_tts_model" with
         | some (.str _) => true
         | some _ => false
         | Option.none => true) = true
      ∧ dictAllVals tr engineCfgOkB = true := by
    cases htts : lookup? base "text_to_speech" with
    | none =>
      exact ⟨.nil, by simp [ttsRootE, dgetD, htts, asDictOr], rfl, rfl⟩
    | some v =>
      rw [htts] at hb1
      have hroot : ttsRootE base = asDictOr v := by simp [ttsRootE, dgetD, htts]
      cases v with
      | dict bt =>
        simp only [Bool.and_eq_true] at hb1
        exact ⟨bt, by rw [hroot]; rfl, hb1.1, hb1.2⟩
      | none => exact ⟨.nil, by rw [hroot]; exact asDictOr_falsy (by simpa using hb1), rfl, rfl⟩
      | bool b => exact ⟨.nil, by rw [hroot]; exact asDictOr_falsy (by simpa using hb1), rfl, rfl⟩
      | int n => exact ⟨.nil, by rw [hroot]; exact asDictOr_falsy (by simpa using hb1), rfl, rfl⟩
      | float q => exact ⟨.nil, by rw [hroot]; exact asDictOr_falsy (by simpa using hb1), rfl, rfl⟩
      | str s => exact ⟨.nil, by rw [hroot]; exact asDictOr_falsy (by simpa using hb1), rfl, rfl⟩
      | list xs => exact ⟨.nil, by rw [hroot]; exact asDictOr_falsy (by simpa using hb1), rfl, rfl⟩
  -- the selected engine is a string
  have hts : lookup? data "tts_model" = Option.none := onlySelectors_lookup hd (by decide)
  obtain ⟨e, he⟩ : ∃ e, ttsModelE base data = .ok e := by
    cases hdt : lookup? tr "default_tts_model" with
    | none =>
      exact ⟨"openai", by simp [ttsModelE, htr, Bind.bind, Except.bind, dgetD, hts, hdt]⟩
    | some w =>
      rw [hdt] at hdtm
      cases w with
      | str s => exact ⟨s, by simp [ttsModelE, htr, Bind.bind, Except.bind, dgetD, hts, hdt]⟩
      | none => simp at hdtm
      | bool b => simp at hdtm
      | int n => simp at hdtm
      | float q => simp at hdtm
      | list xs => simp at hdtm
      | dict d => simp at hdtm
  -- the engine configuration is a dict with a well-shaped default_voices
  obtain ⟨cfg, hcfgE, hdvok⟩ : ∃ cfg, ttsModelCfgE base data = .ok cfg ∧ dvOkB cfg = true := by
    have hbasecfg : ttsModelCfgE base data = asDictOr (dgetD tr e (.dict .nil)) := by
      simp [ttsModelCfgE, htr, he, Bind.bind, Except.bind]
    cases hce : lookup? tr e with
    | none => exact ⟨.nil, by rw [hbasecfg]; simp [dgetD, hce, asDictOr], rfl⟩
    | some w =>
      have hw := dictAllVals_lookup hall hce
      cases w with
      | dict cfg =>
        refine ⟨cfg, by rw [hbasecfg]; simp [dgetD, hce, asDictOr], ?_⟩
        simpa [engineCfgOkB] using hw
      | none =>
        exact ⟨.nil, by rw [hbasecfg]; simp [dgetD, hce]
                        exact asDictOr_falsy (by simpa [engineCfgOkB] using hw), rfl⟩
      | bool b =>
        exact ⟨.nil, by rw [hbasecfg]; simp [dgetD, hce]
                        exact asDictOr_falsy (by simpa [engineCfgOkB] using hw), rfl⟩
      | int n =>
        exact ⟨.nil, by rw [hbasecfg]; simp [dgetD, hce]
                        exact asDictOr_falsy (by simpa [engineCfgOkB] using hw), rfl⟩
      | float q =>
        exact ⟨.nil, by rw [hbasecfg]; simp [dgetD, hce]
                        exact asDictOr_falsy (by simpa [engineCfgOkB] using hw), rfl⟩
      | str s =>
        exact ⟨.nil, by rw [hbasecfg]; simp [dgetD, hce]
                        exact asDictOr_falsy (by simpa [engineCfgOkB] using hw), rfl⟩
      | list xs =>
        exact ⟨.nil, by rw [hbasecfg]; simp [dgetD, hce]
                        exact asDictOr_falsy (by simpa [engineCfgOkB] using hw), rfl⟩
  -- no voices are supplied by the request
  have hvno : lookup? data "voices" = Option.none := onlySelectors_lookup hd (by decide)
  have hvin : voicesInE data = .ok .nil := by simp [voicesInE, dgetD, hvno, asDictOr]
  -- the default voices are a dict
  obtain ⟨dv, hdvE⟩ : ∃ dv, defaultVoicesE base data = .ok dv := by
    have hbasedv : defaultVoicesE base data = asDictOr (dgetD cfg "default_voices" (.dict .nil)) := by
      simp [defaultVoicesE, hcfgE, Bind.bind, Except.bind]
    rw [dvOkB] at hdvok
    cases hdd : lookup? cfg "default_voices" with
    | none => exact ⟨.nil, by rw [hbasedv]; simp [dgetD, hdd, asDictOr]⟩
    | some w =>
      rw [hdd] at hdvok
      cases w with
      | dict d => exact ⟨d, by rw [hbasedv]; simp [dgetD, hdd, asDictOr]⟩
      | none =>
        exact ⟨.nil, by rw [hbasedv]; simp [dgetD, hdd]
                        exact asDictOr_falsy (by simpa using hdvok)⟩
      | bool b =>
        exact ⟨.nil, by rw [hbasedv]; simp [dgetD, hdd]
                        exact asDictOr_falsy (by simpa using hdvok)⟩
      | int n =>
        exact ⟨.nil, by rw [hbasedv]; simp [dgetD, hdd]
                        exact asDictOr_falsy (by simpa using hdvok)⟩
      | float q =>
        exact ⟨.nil, by rw [hbasedv]; simp [dgetD, hdd]
                        exact asDictOr_falsy (by simpa using hdvok)⟩
      | str s =>
        exact ⟨.nil, by rw [hbasedv]; simp [dgetD, hdd]
                        exact asDictOr_falsy (by simpa using hdvok)⟩
      | list xs =>
        exact ⟨.nil, by rw [hbasedv]; simp [dgetD, hdd]
                        exact asDictOr_falsy (by simpa using hdvok)⟩
  obtain ⟨qv, hqv⟩ : ∃ qv, qVoiceE base data = .ok qv := by
    refine ⟨pyOr (parseVoice (dget PyDict.nil "question")) (parseVoice (dget dv "question")), ?_⟩
    simp [qVoiceE, hvin, hdvE, Bind.bind, Except.bind]
  obtain ⟨avv, hav⟩ : ∃ avv, aVoiceE base data = .ok avv := by
    refine ⟨pyOr (parseVoice (dget PyDict.nil "answer")) (parseVoice (dget dv "answer")), ?_⟩
    simp [aVoiceE, hvin, hdvE, Bind.bind, Except.bind]
  -- the user instructions are a string or falsy
  have hdui : lookup? data "user_instructions" = Option.none := onlySelectors_lookup hd (by decide)
  obtain ⟨u, huiE⟩ : ∃ u, uiOptE base data = .ok u := by
    have hval : uiValR base data = dgetD base "user_instructions" (.str "") := by
      simp [uiValR, dget, hdui, pyOr, pyTruthy]
    cases hbu : lookup? base "user_instructions" with
    | none => exact ⟨some "", by simp [uiOptE, hval, dgetD, hbu]⟩
    | some w =>
      rw [hbu] at hb2
      cases w with
      | str s => exact ⟨some s, by simp [uiOptE, hval, dgetD, hbu]⟩
      | none => exact ⟨Option.none, by simp [uiOptE, hval, dgetD, hbu, pyTruthy]⟩
      | bool b => exact ⟨Option.none, by simp [uiOptE, hval, dgetD, hbu, (by simpa using hb2 : pyTruthy (PyVal.bool b) = false)]⟩
      | int n => exact ⟨Option.none, by simp [uiOptE, hval, dgetD, hbu, (by simpa using hb2 : pyTruthy (PyVal.int n) = false)]⟩
      | float q => exact ⟨Option.none, by simp [uiOptE, hval, dgetD, hbu, (by simpa using hb2 : pyTruthy (PyVal.float q) = false)]⟩
      | list xs => exact ⟨Option.none, by simp [uiOptE, hval, dgetD, hbu, (by simpa using hb2 : pyTruthy (PyVal.list xs) = false)]⟩
      | dict d => exact ⟨Option.none, by simp [uiOptE, hval, dgetD, hbu, (by simpa using hb2 : pyTruthy (PyVal.dict d) = false)]⟩
  obtain ⟨U, hU⟩ : ∃ U, userInstructionsE base data = .ok U := by
    refine ⟨injectWordCount u (wordCountR data) (wordCountStrictR data), ?_⟩
    simp [userInstructionsE, huiE, Bind.bind, Except.bind]
  -- the creativity is numeric
  have hdcr : lookup? data "creativity" = Option.none := onlySelectors_lookup hd (by decide)
  obtain ⟨c, hcE⟩ : ∃ c, creativityE base data = .ok c := by
    have hval : creativityValR base data = dgetD base "creativity" (.float (mkRat 7 10)) := by
      simp [creativityValR, dgetD, hdcr]
    cases hbc : lookup? base "creativity" with
    | none => exact ⟨mkRat 7 10, by simp [creativityE, hval, dgetD, hbc, pyFloat?]⟩
    | some w =>
      rw [hbc] at hb3
      obtain ⟨q, hq⟩ := Option.isSome_iff_exists.mp hb3
      exact ⟨q, by simp [creativityE, hval, dgetD, hbc, hq]⟩
  -- assemble the pipeline
  have hov : convoOverrideE base data = .ok (convoOverrideDict base data e cfg qv avv U c) := by
    simp [convoOverrideE, he, hcfgE, hqv, hav, hU, hcE, Bind.bind, Except.bind]
  have hconvo : convoE base data
      = .ok (pyOr
          (stripEmpty (.dict (deepMerge base (convoOverrideDict base data e cfg qv avv U c))))
          (.dict (deepMerge base (convoOverrideDict base data e cfg qv avv U c)))) := by
    simp [convoE, hov, Bind.bind, Except.bind]
  simp [resolveGpE, hconvo, he, Bind.bind, Except.bind, exceptOk]

/-! Section: claim theorems -/

/-- C4 counterexample: the string `"abcdefgh\tij"` contains whitespace (a tab),
so the claim classifies it as a name returned as the bare string; the code only
tests for the space character and the string has length 11 ≥ 10, so
`_parse_voice` wraps it as `{voice_id: ...}` instead. -/
theorem claim_C4_counterexample :
    ('\t' ∈ "abcdefgh\tij".data ∧ Char.isWhitespace '\t' = true
      ∧ 10 ≤ "abcdefgh\tij".length)
    ∧ parseVoice (.str "abcdefgh\tij")
        = .dict (.cons "voice_id" (.str "abcdefgh\tij") .nil)
    ∧ parseVoice (.str "abcdefgh\tij") ≠ .str "abcdefgh\tij" := by
  refine ⟨⟨by decide, rfl, by decide⟩, rfl, ?_⟩
  intro hc
  exact PyVal.noConfusion
    ((show parseVoice (.str "abcdefgh\tij")
        = PyVal.dict (.cons "voice_id" (.str "abcdefgh\tij") .nil) from rfl).symm.trans hc)

/-- C4 (amended): voice classification of a non-null string applies to the
whitespace-trimmed string: if it trims to empty the result is null; otherwise
a trimmed string containing a space character, or shorter than 10 characters,
is returned as the bare trimmed name, and every other trimmed string is
wrapped as `{voice_id: value}`; e.g. `"uUnmYv9aJqaqzs1wcFRH"` yields
`{voice_id: "uUnmYv9aJqaqzs1wcFRH"}` and `"Rachel"` yields `"Rachel"`. -/
theorem claim_C4_amended :
    (∀ s : String, pyStrip s = "" → parseVoice (.str s) = PyVal.none)
    ∧ (∀ s : String, pyStrip s ≠ "" →
        ((pyStrip s).data.contains ' ' = true ∨ (pyStrip s).length < 10) →
        parseVoice (.str s) = .str (pyStrip s))
    ∧ (∀ s : String, (pyStrip s).data.contains ' ' = false → 10 ≤ (pyStrip s).length →
        parseVoice (.str s) = .dict (.cons "voice_id" (.str (pyStrip s)) .nil))
    ∧ parseVoice (.str "uUnmYv9aJqaqzs1wcFRH")
        = .dict (.cons "voice_id" (.str "uUnmYv9aJqaqzs1wcFRH") .nil)
    ∧ parseVoice (.str "Rachel") = .str "Rachel" := by
  refine ⟨?_, ?_, ?_, rfl, rfl⟩
  · intro s h
    simp [parseVoice, h]
  · intro s h hcond
    rcases hcond with hc | hl
    · have hmem : ' ' ∈ (pyStrip s).data := by simpa using hc
      simp [parseVoice, h, hmem]
    · have hnotle : ¬ (10 ≤ (pyStrip s).length) := by omega
      simp [parseVoice, h, hnotle]
  · intro s hc hl
    have hne : pyStrip s ≠ "" := by
      intro he
      rw [he] at hl
      simp [String.length] at hl
    have hnm : ' ' ∉ (pyStrip s).data := by simpa using hc
    simp [parseVoice, hne, hnm, hl]

/-- C4 witness: concrete classifications obtained from `claim_C4_amended`:
a short name, a long name containing spaces, and a whitespace-only string. -/
theorem claim_C4_witness :
    parseVoice (.str " Rachel ") = .str "Rachel"
    ∧ parseVoice (.str "Voice One Two") = .str "Voice One Two"
    ∧ parseVoice (.str "   ") = PyVal.none := by
  refine ⟨?_, ?_, ?_⟩
  · exact claim_C4_amended.2.1 " Rachel " (by decide) (Or.inr (by decide))
  · exact claim_C4_amended.2.1 "Voice One Two" (by decide) (Or.inl (by decide))
  · exact claim_C4_amended.1 "   " (by decide)

/-- C6 counterexample: for `word_count = 5` (positive, so the instruction is
injected) the claim's band `±max(10, 5%)` would be `[-5, 15]`, but the code
clamps the lower bound at 1 and emits `[1, 15]`. -/
theorem claim_C6_counterexample :
    injectWordCount Option.none (some 5) false = "Zielumfang: 1 bis 15 Wörter."
    ∧ "Zielumfang: 1 bis 15 Wörter." ≠ "Zielumfang: -5 bis 15 Wörter." :=
  ⟨rfl, by decide⟩

/-- C6 (amended): for a positive word count the instruction appended to the
whitespace-trimmed `user_instructions` (separated by a newline when that
trimmed string is non-empty, never overwriting it) requests exactly the count
when strict, and otherwise a band of `±max(10, ⌊5%⌋)` around it whose lower
end is clamped to at least 1; the clamp is not binding for word counts ≥ 11
(so 500 yields the band [475, 525]). -/
theorem claim_C6_amended (ui : Option String) (wc : Int) (strict : Bool) (h : 0 < wc) :
    injectWordCount ui (some wc) strict
      = (if pyStrip (ui.getD "") = "" then wcLine wc strict
         else pyStrip (ui.getD "") ++ "\n" ++ wcLine wc strict)
    ∧ wcLine wc true = "Schreibe exakt " ++ toString wc ++ " Wörter."
    ∧ wcLine wc false = "Zielumfang: " ++ toString (max 1 (wc - max 10 (int05 wc)))
        ++ " bis " ++ toString (wc + max 10 (int05 wc)) ++ " Wörter."
    ∧ (11 ≤ wc → max 1 (wc - max 10 (int05 wc)) = wc - max 10 (int05 wc)) := by
  have hz : ¬ wc = 0 := by omega
  refine ⟨by simp [injectWordCount, hz], rfl, rfl, ?_⟩
  intro h11
  have hs : wc.sign = 1 := Int.sign_eq_one_of_pos h
  rw [int05, hs, one_mul]
  have h2 : wc.natAbs / 20 < wc.natAbs :=
    Nat.div_lt_self (Int.natAbs_pos.mpr (by omega)) (by norm_num)
  simp only [Int.ofNat_eq_natCast]
  omega

/-- C6 witness: `claim_C6_amended` at `word_count = 500`: the non-strict band
is `[475, 525]` and the strict instruction requests exactly 500 words, both
appended after the existing instructions. -/
theorem claim_C6_witness :
    injectWordCount (some "Sei locker.") (some 500) false
      = "Sei locker.\nZielumfang: 475 bis 525 Wörter."
    ∧ injectWordCount (some "Sei locker.") (some 500) true
      = "Sei locker.\nSchreibe exakt 500 Wörter." := by
  refine ⟨?_, ?_⟩
  · exact ((claim_C6_amended (some "Sei locker.") 500 false (by norm_num)).1).trans rfl
  · exact ((claim_C6_amended (some "Sei locker.") 500 true (by norm_num)).1).trans rfl

/-- C7: deep merge is idempotent: merging the same override into a base twice
yields the same result as merging it once (for any override whose dicts have
the duplicate-free keys every Python dict has; the base is unrestricted). -/
theorem claim_C7 (base override : PyDict) (h : pyWF (.dict override) = true) :
    deepMerge (deepMerge base override) override = deepMerge base override :=
  deepMerge_idem base override h

/-- C7 witness: `claim_C7` on a concrete base/override pair that exercises the
nested-merge path. -/
theorem claim_C7_witness :
    pyWF (.dict (dictOf [("text_to_speech", .dict (.cons "openai"
        (.dict (.cons "default_voices" (.dict (.cons "question" (.str "Rachel") .nil)) .nil))
        .nil))])) = true
    ∧ deepMerge
        (deepMerge
          (dictOf [("podcast_name", .str "Pod"), ("text_to_speech", .dict (dictOf
            [("default_tts_model", .str "openai"),
             ("openai", .dict (.cons "model" (.str "tts-1") .nil))]))])
          (dictOf [("text_to_speech", .dict (.cons "openai"
            (.dict (.cons "default_voices" (.dict (.cons "question" (.str "Rachel") .nil)) .nil))
            .nil))]))
        (dictOf [("text_to_speech", .dict (.cons "openai"
          (.dict (.cons "default_voices" (.dict (.cons "question" (.str "Rachel") .nil)) .nil))
          .nil))])
      = deepMerge
          (dictOf [("podcast_name", .str "Pod"), ("text_to_speech", .dict (dictOf
            [("default_tts_model", .str "openai"),
             ("openai", .dict (.cons "model" (.str "tts-1") .nil))]))])
          (dictOf [("text_to_speech", .dict (.cons "openai"
            (.dict (.cons "default_voices" (.dict (.cons "question" (.str "Rachel") .nil)) .nil))
            .nil))]) :=
  ⟨rfl, claim_C7 _ _ rfl⟩

/-- C8: stripping removes nulls, whitespace-empty strings, empty lists and
empty mappings recursively, and a container that becomes empty is itself
removed: the spec's example strips as stated, and in general every stripped
value is either removed entirely or contains no such empty value anywhere. -/
theorem claim_C8 :
    stripEmpty (.dict (dictOf [("a", .str ""), ("b", .dict (.cons "c" .none .nil)),
        ("d", .list (listOf [.int 1, .str "", .int 2]))]))
      = .dict (.cons "d" (.list (listOf [.int 1, .int 2])) .nil)
    ∧ ∀ x : PyVal, stripEmpty x = PyVal.none ∨ survivor (stripEmpty x) = true :=
  ⟨rfl, stripEmpty_no_empties⟩

/-- C9: a non-empty string in `word_count_strict` — including `"false"` — is
truthy under `bool(...)`, so strict mode is enabled and, for a positive word
count, the exact-count instruction is injected. -/
theorem claim_C9 (data : PyDict) (s : String)
    (hs : lookup? data "word_count_strict" = some (.str s)) (hne : s ≠ "")
    (ui : Option String) (wc : Int) (hwc : 0 < wc) :
    wordCountStrictR data = true
    ∧ injectWordCount ui (some wc) (wordCountStrictR data)
      = (if pyStrip (ui.getD "") = "" then "Schreibe exakt " ++ toString wc ++ " Wörter."
         else pyStrip (ui.getD "") ++ "\n"
           ++ ("Schreibe exakt " ++ toString wc ++ " Wörter.")) := by
  have h1 : wordCountStrictR data = true := by
    simp [wordCountStrictR, dgetD, hs, pyTruthy, hne]
  have hz : ¬ wc = 0 := by omega
  refine ⟨h1, ?_⟩
  rw [h1]
  simp [injectWordCount, hz, wcLine]

/-- C9 witness: `claim_C9` on a request carrying `word_count_strict = "false"`
and `word_count = 500`. -/
theorem claim_C9_witness :
    wordCountStrictR (.cons "word_count_strict" (.str "false") .nil) = true
    ∧ injectWordCount (some "") (some 500)
        (wordCountStrictR (.cons "word_count_strict" (.str "false") .nil))
      = "Schreibe exakt 500 Wörter." := by
  have h := claim_C9 (.cons "word_count_strict" (.str "false") .nil) "false" rfl
    (by decide) (some "") 500 (by norm_num)
  exact ⟨h.1, h.2.trans rfl⟩

/-- C10: `_coerce_int` returns no value on booleans (they are tested before
the `int`/`float` branch, even though Python treats them as integers), so a
request whose word-count disjunction selects a boolean has no word count and
no instruction is injected. -/
theorem claim_C10 (data : PyDict) (b : Bool) (ui : Option String) (strict : Bool)
    (hb : pyOr (pyOr (dget data "word_count") (dget data "target_words"))
        (dget data "target_word_count") = .bool b) :
    (∀ b' : Bool, coerceInt (.bool b') = Option.none)
    ∧ wordCountR data = Option.none
    ∧ injectWordCount ui (wordCountR data) strict = pyStrip (ui.getD "") := by
  have h2 : wordCountR data = Option.none := by
    rw [wordCountR, hb]
    rfl
  exact ⟨fun _ => rfl, h2, by rw [h2]; rfl⟩

/-- C10 witness: `claim_C10` on a request with `word_count = True`: the
user instructions pass through unchanged. -/
theorem claim_C10_witness :
    wordCountR (.cons "word_count" (.bool true) .nil) = Option.none
    ∧ injectWordCount (some "Hallo") (wordCountR (.cons "word_count" (.bool true) .nil)) false
      = "Hallo" := by
  have h := claim_C10 (.cons "word_count" (.bool true) .nil) true (some "Hallo") false rfl
  exact ⟨h.2.1, (h.2.2).trans rfl⟩

/-- C3 counterexample: with `base.text_to_speech.default_tts_model = "openai"`
and a request that sets `tts_model` to the empty string (present but empty),
the resolved engine is `""` — not `"openai"` as the claim's precedence rule
demands — and the explicitly set field is then silently dropped from the final
configuration by stripping. -/
theorem claim_C3_counterexample :
    ttsModelE (dictOf [("text_to_speech", .dict (.cons "default_tts_model" (.str "openai") .nil))])
        (.cons "tts_model" (.str "") .nil) = .ok ""
    ∧ ("" : String) ≠ "openai"
    ∧ (convoE (dictOf [("text_to_speech", .dict (.cons "default_tts_model" (.str "openai") .nil))])
          (.cons "tts_model" (.str "") .nil)).map
        (fun C => pathLookup C ["text_to_speech", "default_tts_model"]) = .ok Option.none :=
  ⟨rfl, by decide, rfl⟩

/-- C3 (amended): precedence is request > base > literal default, but with two
different presence notions.  Fields read with truthiness chains (`x or y or z`:
output_language and its `language` alias, podcast_name and its `name` alias)
take the request value only when truthy and otherwise fall back; fields read
with `.get(key, default)` (tts_model, conversation_style, roles_person1/2,
dialogue_structure, engagement_techniques, creativity) take the request value
whenever the key is present, even when empty.  With `tts_model` absent and
`base.text_to_speech.default_tts_model = "openai"` the resolved engine is
`"openai"`; absent a base default it is the literal `"openai"`; the literal
defaults for the `.get` fields are the empty list and `0.7` for creativity.
Values that strip to empty are removed from the final document even when the
request set them explicitly. -/
theorem claim_C3_amended :
    (∀ base data tr s, ttsRootE base = .ok tr →
        lookup? data "tts_model" = some (.str s) → ttsModelE base data = .ok s)
    ∧ (∀ base data tr s, ttsRootE base = .ok tr → lookup? data "tts_model" = Option.none →
        lookup? tr "default_tts_model" = some (.str s) → ttsModelE base data = .ok s)
    ∧ (∀ base data tr, ttsRootE base = .ok tr → lookup? data "tts_model" = Option.none →
        lookup? tr "default_tts_model" = Option.none → ttsModelE base data = .ok "openai")
    ∧ (∀ base data, pyTruthy (dget data "output_language") = true →
        output_languageR base data = dget data "output_language")
    ∧ (∀ base data, pyTruthy (dget data "output_language") = false →
        pyTruthy (dget data "language") = true →
        output_languageR base data = dget data "language")
    ∧ (∀ base data, pyTruthy (dget data "output_language") = false →
        pyTruthy (dget data "language") = false →
        output_languageR base data = dgetD base "output_language" (.str "English"))
    ∧ (∀ base data ov, convoOverrideE base data = .ok ov →
        (pyTruthy (dget data "name") = true →
          lookup? ov "podcast_name" = some (dget data "name"))
        ∧ (pyTruthy (dget data "name") = false → pyTruthy (dget data "podcast_name") = true →
          lookup? ov "podcast_name" = some (dget data "podcast_name"))
        ∧ (pyTruthy (dget data "name") = false → pyTruthy (dget data "podcast_name") = false →
          lookup? ov "podcast_name" = some (dget base "podcast_name"))
        ∧ (∀ v, lookup? data "conversation_style" = some v →
          lookup? ov "conversation_style" = some v)
        ∧ (∀ w, lookup? data "conversation_style" = Option.none →
          lookup? base "conversation_style" = some w →
          lookup? ov "conversation_style" = some w)
        ∧ (lookup? data "conversation_style" = Option.none →
          lookup? base "conversation_style" = Option.none →
          lookup? ov "conversation_style" = some (.list .nil))
        ∧ (∀ v, lookup? data "roles_person1" = some v → lookup? ov "roles_person1" = some v)
        ∧ (lookup? data "creativity" = Option.none → lookup? base "creativity" = Option.none →
          lookup? ov "creativity" = some (.float (mkRat 7 10)))) := by
  refine ⟨?_, ?_, ?_, ?_, ?_, ?_, ?_⟩
  · intro base data tr s htr hs
    simp [ttsModelE, htr, Bind.bind, Except.bind, dgetD, hs]
  · intro base data tr s htr hs hdtm
    simp [ttsModelE, htr, Bind.bind, Except.bind, dgetD, hs, hdtm]
  · intro base data tr htr hs hdtm
    simp [ttsModelE, htr, Bind.bind, Except.bind, dgetD, hs, hdtm]
  · intro base data h
    simp [output_languageR, pyOr, h]
  · intro base data h1 h2
    simp [output_languageR, pyOr, h1, h2]
  · intro base data h1 h2
    simp [output_languageR, pyOr, h1, h2]
  · intro base data ov hov
    obtain ⟨e, cfg, qv, av, ui, c, he, hcfg, hq, ha, hui, hc, hoveq⟩ :=
      convoOverrideE_ok_elim hov
    subst hoveq
    refine ⟨?_, ?_, ?_, ?_, ?_, ?_, ?_, ?_⟩
    · intro h
      simp [convoOverrideDict, dictOf, lookup?, pyOr, h]
    · intro h1 h2
      simp [convoOverrideDict, dictOf, lookup?, pyOr, h1, h2]
    · intro h1 h2
      simp [convoOverrideDict, dictOf, lookup?, pyOr, h1, h2]
    · intro v hv
      simp [convoOverrideDict, dictOf, lookup?, dgetD, hv]
    · intro w hv hw
      simp [convoOverrideDict, dictOf, lookup?, dgetD, hv, hw]
    · intro hv hw
      simp [convoOverrideDict, dictOf, lookup?, dgetD, hv, hw]
    · intro v hv
      simp [convoOverrideDict, dictOf, lookup?, dgetD, hv]
    · intro hv hw
      have hcval : c = mkRat 7 10 := by
        unfold creativityE creativityValR at hc
        rw [dgetD, hv] at hc
        simp [dgetD, hw, pyFloat?] at hc
        exact hc.symm
      simp [convoOverrideDict, dictOf, lookup?, hcval]

/-- C3 witness: `claim_C3_amended` applied to a base whose
`text_to_speech.default_tts_model` is `"openai"` and an empty request:
the resolved engine is `"openai"` and the resolved output language falls back
to the base default `"English"`. -/
theorem claim_C3_witness :
    ttsModelE (dictOf [("text_to_speech", .dict (.cons "default_tts_model" (.str "openai") .nil))])
        .nil = .ok "openai"
    ∧ output_languageR (dictOf [("text_to_speech",
        .dict (.cons "default_tts_model" (.str "openai") .nil))]) .nil = .str "English" := by
  refine ⟨?_, ?_⟩
  · exact claim_C3_amended.2.1
      (dictOf [("text_to_speech", .dict (.cons "default_tts_model" (.str "openai") .nil))])
      .nil (.cons "default_tts_model" (.str "openai") .nil) "openai" rfl rfl rfl
  · exact (claim_C3_amended.2.2.2.2.2.1
      (dictOf [("text_to_speech", .dict (.cons "default_tts_model" (.str "openai") .nil))])
      .nil rfl rfl).trans rfl

/-- C5: when the base configuration supplies a default question voice (a
trimmed non-empty string, e.g. a YAML voice entry) for the selected engine and
the request's `voices` mapping sets only `answer`, the resolved configuration's
question voice at `text_to_speech.<engine>.default_voices.question` is exactly
the classification of the base's entry — independent of the answer value, so
inheriting it is neither removed nor altered by the answer-only override. -/
theorem claim_C5 (base data bt cfg dv : PyDict) (e q0 : String) (av : PyVal)
    (hWF : pyWF (.dict base) = true)
    (htts : lookup? base "text_to_speech" = some (.dict bt))
    (he : ttsModelE base data = .ok e)
    (hcfg : lookup? bt e = some (.dict cfg))
    (hdv : lookup? cfg "default_voices" = some (.dict dv))
    (hq0 : lookup? dv "question" = some (.str q0))
    (hq0t : pyStrip q0 = q0) (hq0ne : q0 ≠ "")
    (hvoices : lookup? data "voices" = some (.dict (.cons "answer" av .nil)))
    (huiOk : exceptOk (uiOptE base data) = true)
    (hcrOk : exceptOk (creativityE base data) = true) :
    (convoE base data).map
        (fun C => pathLookup C ["text_to_speech", e, "default_voices", "question"])
      = .ok (some (parseVoice (.str q0)))
    ∧ parseVoice (.str q0) ≠ PyVal.none := by
  -- pipeline components
  have htr : ttsRootE base = .ok bt := by
    simp [ttsRootE, dgetD, htts, asDictOr]
  have hcfgE : ttsModelCfgE base data = .ok cfg := by
    simp [ttsModelCfgE, htr, he, Bind.bind, Except.bind, dgetD, hcfg, asDictOr]
  have hvin : voicesInE data = .ok (.cons "answer" av .nil) := by
    simp [voicesInE, dgetD, hvoices, asDictOr]
  have hdvE : defaultVoicesE base data = .ok dv := by
    simp [defaultVoicesE, hcfgE, Bind.bind, Except.bind, dgetD, hdv, asDictOr]
  have hqv : qVoiceE base data = .ok (parseVoice (.str q0)) := by
    simp only [qVoiceE, hvin, hdvE, Bind.bind, Except.bind]
    have h2 : dget dv "question" = .str q0 := by rw [dget, hq0]; rfl
    rw [h2]
    rfl
  have havE : aVoiceE base data
      = .ok (pyOr (parseVoice (dget (.cons "answer" av .nil) "answer"))
          (parseVoice (dget dv "answer"))) := by
    simp [aVoiceE, hvin, hdvE, Bind.bind, Except.bind]
  obtain ⟨u, huiE⟩ : ∃ u, uiOptE base data = .ok u := by
    cases h : uiOptE base data with
    | ok u => exact ⟨u, rfl⟩
    | error err => rw [h] at huiOk; simp [exceptOk] at huiOk
  have huser : userInstructionsE base data
      = .ok (injectWordCount u (wordCountR data) (wordCountStrictR data)) := by
    simp [userInstructionsE, huiE, Bind.bind, Except.bind]
  obtain ⟨c, hcrE⟩ : ∃ c, creativityE base data = .ok c := by
    cases h : creativityE base data with
    | ok c => exact ⟨c, rfl⟩
    | error err => rw [h] at hcrOk; simp [exceptOk] at hcrOk
  set qv := parseVoice (.str q0) with hqvdef
  set A := pyOr (parseVoice (dget (.cons "answer" av .nil) "answer"))
    (parseVoice (dget dv "answer")) with hAdef
  set U := injectWordCount u (wordCountR data) (wordCountStrictR data) with hUdef
  set OV := convoOverrideDict base data e cfg qv A U c with hOVdef
  have hov : convoOverrideE base data = .ok OV := by
    simp [convoOverrideE, he, hcfgE, hqv, havE, huser, hcrE, Bind.bind, Except.bind, hOVdef]
  have hconvo : convoE base data
      = .ok (pyOr (stripEmpty (.dict (deepMerge base OV))) (.dict (deepMerge base OV))) := by
    simp [convoE, hov, Bind.bind, Except.bind]
  -- abbreviations for the override's nested dicts
  set dvPairs : PyDict := .cons "question" qv (.cons "answer" A .nil) with hdvPdef
  set cfgOv := setKey cfg "default_voices" (.dict dvPairs) with hcfgOvdef
  set ttsOv := setKey (.cons "default_tts_model" (.str e) .nil) e (.dict cfgOv) with httsOvdef
  -- well-formedness chain
  have hndbase := (pyWF_dict_elim hWF).1
  have hWFbt : pyWF (.dict bt) = true := pyWF_dict_lookup hWF htts
  have hndbt := (pyWF_dict_elim hWFbt).1
  have hWFcfg : pyWF (.dict cfg) = true := pyWF_dict_lookup hWFbt hcfg
  have hndcfg := (pyWF_dict_elim hWFcfg).1
  have hWFdv : pyWF (.dict dv) = true := pyWF_dict_lookup hWFcfg hdv
  have hnddv := (pyWF_dict_elim hWFdv).1
  have hndOV : nodupKeys OV = true := by rw [hOVdef]; rfl
  have hndtts : nodupKeys ttsOv = true := by
    rw [httsOvdef]
    exact nodupKeys_setKey (by rfl) e (.dict cfgOv)
  have hndcfgOv : nodupKeys cfgOv = true := by
    rw [hcfgOvdef]
    exact nodupKeys_setKey hndcfg "default_voices" (.dict dvPairs)
  have hnddvP : nodupKeys dvPairs = true := by rw [hdvPdef]; rfl
  -- the merged values along the path
  have hm1 : lookup? (deepMerge base OV) "text_to_speech"
      = some (.dict (deepMerge bt ttsOv)) := by
    have h1 := lookup?_deepMerge OV hndOV
      (show lookup? OV "text_to_speech" = some (.dict ttsOv) from by
        rw [hOVdef, httsOvdef, hcfgOvdef, hdvPdef]; rfl) base
    rw [htts, mergeVal_dict_dict] at h1
    exact h1
  have hm2 : lookup? (deepMerge bt ttsOv) e = some (.dict (deepMerge cfg cfgOv)) := by
    have h1 := lookup?_deepMerge ttsOv hndtts
      (show lookup? ttsOv e = some (.dict cfgOv) from by
        rw [httsOvdef]; exact lookup?_setKey_self _ e _) bt
    rw [hcfg, mergeVal_dict_dict] at h1
    exact h1
  have hm3 : lookup? (deepMerge cfg cfgOv) "default_voices"
      = some (.dict (deepMerge dv dvPairs)) := by
    have h1 := lookup?_deepMerge cfgOv hndcfgOv
      (show lookup? cfgOv "default_voices" = some (.dict dvPairs) from by
        rw [hcfgOvdef]; exact lookup?_setKey_self _ _ _) cfg
    rw [hdv, mergeVal_dict_dict] at h1
    exact h1
  have hm4 : lookup? (deepMerge dv dvPairs) "question" = some qv := by
    have h1 := lookup?_deepMerge dvPairs hnddvP
      (show lookup? dvPairs "question" = some qv from by rw [hdvPdef]; rfl) dv
    rw [hq0, mergeVal_some_str] at h1
    exact h1
  -- the question voice survives stripping
  have hkeepqv := parseVoice_str_keep q0 hq0t hq0ne
  have hs4 : lookup? (stripDict (deepMerge dv dvPairs)) "question" = some qv := by
    rw [lookup?_stripDict (nodupKeys_deepMerge dvPairs hnddv) "question", hm4]
    simpa [hqvdef] using hkeepqv.1
  have hk4 : keepStrip (.dict (deepMerge dv dvPairs))
      = some (.dict (stripDict (deepMerge dv dvPairs))) := keepStrip_dict_of_lookup hs4
  have hs3 : lookup? (stripDict (deepMerge cfg cfgOv)) "default_voices"
      = some (.dict (stripDict (deepMerge dv dvPairs))) := by
    rw [lookup?_stripDict (nodupKeys_deepMerge cfgOv hndcfg) "default_voices", hm3]
    simpa using hk4
  have hk3 : keepStrip (.dict (deepMerge cfg cfgOv))
      = some (.dict (stripDict (deepMerge cfg cfgOv))) := keepStrip_dict_of_lookup hs3
  have hs2 : lookup? (stripDict (deepMerge bt ttsOv)) e
      = some (.dict (stripDict (deepMerge cfg cfgOv))) := by
    rw [lookup?_stripDict (nodupKeys_deepMerge ttsOv hndbt) e, hm2]
    simpa using hk3
  have hk2 : keepStrip (.dict (deepMerge bt ttsOv))
      = some (.dict (stripDict (deepMerge bt ttsOv))) := keepStrip_dict_of_lookup hs2
  -- assemble the path lookup through strip-or-fallback
  refine ⟨?_, hkeepqv.2⟩
  rw [hconvo]
  simp only [Except.map]
  rw [strip_pyOr_path (nodupKeys_deepMerge OV hndbase) hm1 hk2
    [e, "default_voices", "question"]]
  rw [path_stripDict (nodupKeys_deepMerge ttsOv hndbt) hm2 hk3 ["default_voices", "question"]]
  rw [path_stripDict (nodupKeys_deepMerge cfgOv hndcfg) hm3 hk4 ["question"]]
  rw [path_stripDict (nodupKeys_deepMerge dvPairs hnddv) hm4 hkeepqv.1 []]
  rw [hqvdef, pathLookup_nil]

/-- C5 witness: `claim_C5` on the spec's end-to-end example: engine
`"elevenlabs"`, base question voice `"Rachel"`, request setting only
`voices.answer = {voice_id: "abc123xyz9"}`; the resolved question voice is
`"Rachel"`. -/
theorem claim_C5_witness :
    (convoE
        (dictOf [("text_to_speech", .dict (dictOf
          [("default_tts_model", .str "elevenlabs"),
           ("elevenlabs", .dict (.cons "default_voices" (.dict (dictOf
             [("question", .str "Rachel"), ("answer", .str "Aria")])) .nil))]))])
        (dictOf [("topic", .str "ocean currents"), ("tts_model", .str "elevenlabs"),
          ("voices", .dict (.cons "answer"
            (.dict (.cons "voice_id" (.str "abc123xyz9") .nil)) .nil))])).map
      (fun C => pathLookup C ["text_to_speech", "elevenlabs", "default_voices", "question"])
    = .ok (some (.str "Rachel")) := by
  have h := claim_C5
    (dictOf [("text_to_speech", .dict (dictOf
      [("default_tts_model", .str "elevenlabs"),
       ("elevenlabs", .dict (.cons "default_voices" (.dict (dictOf
         [("question", .str "Rachel"), ("answer", .str "Aria")])) .nil))]))])
    (dictOf [("topic", .str "ocean currents"), ("tts_model", .str "elevenlabs"),
      ("voices", .dict (.cons "answer"
        (.dict (.cons "voice_id" (.str "abc123xyz9") .nil)) .nil))])
    (dictOf [("default_tts_model", .str "elevenlabs"),
      ("elevenlabs", .dict (.cons "default_voices" (.dict (dictOf
        [("question", .str "Rachel"), ("answer", .str "Aria")])) .nil))])
    (.cons "default_voices" (.dict (dictOf
      [("question", .str "Rachel"), ("answer", .str "Aria")])) .nil)
    (dictOf [("question", .str "Rachel"), ("answer", .str "Aria")])
    "elevenlabs" "Rachel" (.dict (.cons "voice_id" (.str "abc123xyz9") .nil))
    rfl rfl rfl rfl rfl rfl rfl (by decide) rfl rfl rfl
  exact h.1

/-- C2 counterexample: with the empty base (the documented fallback) and the
request `{"text": "hi"}`, both resolved voices are null, so stripping removes
the whole engine sub-key: the resolved configuration contains no voice specs
at all (first conjunct), and the empty resolved `user_instructions` is also
stripped and never re-inserted (second conjunct) — contradicting the claim
that these fields are present even when stripping removed them. -/
theorem claim_C2_counterexample :
    (convoE PyDict.nil (.cons "text" (.str "hi") .nil)).map
        (fun C => pathLookup C ["text_to_speech", "openai"]) = .ok Option.none
    ∧ (convoE PyDict.nil (.cons "text" (.str "hi") .nil)).map
        (fun C => pathLookup C ["user_instructions"]) = .ok Option.none :=
  ⟨rfl, rfl⟩

/-- C2 (amended): no field is re-inserted after stripping (the only fallback
replaces a fully-empty stripped document with the unstripped one); instead,
the engine identifier and the output language are present in the resolver's
output — even when the request did not supply them — whenever their resolved
values are non-empty strings, while the voice specs under the engine sub-key
survive only when a voice actually resolves (see the counterexample). -/
theorem claim_C2_amended (base data bt : PyDict) (e ls : String)
    (hWF : pyWF (.dict base) = true)
    (htts : lookup? base "text_to_speech" = some (.dict bt) ∨
        (lookup? base "text_to_speech" = Option.none ∧ bt = .nil))
    (he : ttsModelE base data = .ok e)
    (hene : e ≠ "") (hetrim : pyStrip e = e) (hedtm : e ≠ "default_tts_model")
    (hl : output_languageR base data = .str ls) (hlt : pyStrip ls = ls) (hlne : ls ≠ "")
    (hovOk : exceptOk (convoOverrideE base data) = true) :
    (convoE base data).map (fun C =>
        (pathLookup C ["text_to_speech", "default_tts_model"],
         pathLookup C ["output_language"]))
      = .ok (some (.str e), some (.str ls)) := by
  obtain ⟨ov, hov⟩ : ∃ ov, convoOverrideE base data = .ok ov := by
    cases h : convoOverrideE base data with
    | ok ov => exact ⟨ov, rfl⟩
    | error err => rw [h] at hovOk; simp [exceptOk] at hovOk
  obtain ⟨e', cfg, qv, av, ui, c, he', hcfgE, hqE, haE, huiE, hcE, hoveq⟩ :=
    convoOverrideE_ok_elim hov
  have hee : e' = e := by
    rw [he'] at he
    simpa using he
  subst hee
  subst hoveq
  have hconvo : convoE base data
      = .ok (pyOr (stripEmpty (.dict (deepMerge base
          (convoOverrideDict base data e' cfg qv av ui c))))
        (.dict (deepMerge base (convoOverrideDict base data e' cfg qv av ui c)))) := by
    simp [convoE, hov, Bind.bind, Except.bind]
  set OV := convoOverrideDict base data e' cfg qv av ui c with hOVdef
  set ttsOv := setKey (.cons "default_tts_model" (.str e') .nil) e'
    (.dict (setKey cfg "default_voices"
      (.dict (.cons "question" qv (.cons "answer" av .nil))))) with httsOvdef
  have hndbase := (pyWF_dict_elim hWF).1
  have hndOV : nodupKeys OV = true := by rw [hOVdef]; rfl
  have hndM := nodupKeys_deepMerge OV hndbase
  have hdtmne : ¬ ("default_tts_model" = e') := fun hh => hedtm hh.symm
  have hndtts : nodupKeys ttsOv = true := by
    rw [httsOvdef]
    exact nodupKeys_setKey (by rfl) e' _
  -- the override's entries for the two fields
  have hovl : lookup? OV "output_language" = some (.str ls) := by
    rw [show lookup? OV "output_language" = some (output_languageR base data) from by
      rw [hOVdef]; rfl, hl]
  have hovtts : lookup? OV "text_to_speech" = some (.dict ttsOv) := by
    rw [hOVdef, httsOvdef]; rfl
  have hxdtm : lookup? ttsOv "default_tts_model" = some (.str e') := by
    rw [httsOvdef]
    simp [setKey, hdtmne, lookup?]
  -- the merged output language
  have hmlang : lookup? (deepMerge base OV) "output_language" = some (.str ls) := by
    have h1 := lookup?_deepMerge OV hndOV hovl base
    rw [mergeVal_str_right] at h1
    exact h1
  have hklang : keepStrip (.str ls) = some (.str ls) := keepStrip_str hlt hlne
  have hkee : keepStrip (.str e') = some (.str e') := keepStrip_str hetrim hene
  rw [hconvo]
  simp only [Except.map, Except.ok.injEq, Prod.mk.injEq]
  rcases htts with hbt | ⟨hnone, _⟩
  · -- base has a text_to_speech dict: the override merges into it
    have hmtts : lookup? (deepMerge base OV) "text_to_speech"
        = some (.dict (deepMerge bt ttsOv)) := by
      have h1 := lookup?_deepMerge OV hndOV hovtts base
      rw [hbt, mergeVal_dict_dict] at h1
      exact h1
    have hndbt := (pyWF_dict_elim (pyWF_dict_lookup hWF hbt)).1
    have hmin : lookup? (deepMerge bt ttsOv) "default_tts_model" = some (.str e') := by
      have h1 := lookup?_deepMerge ttsOv hndtts hxdtm bt
      rw [mergeVal_str_right] at h1
      exact h1
    have hsin : lookup? (stripDict (deepMerge bt ttsOv)) "default_tts_model"
        = some (.str e') := by
      rw [lookup?_stripDict (nodupKeys_deepMerge ttsOv hndbt) "default_tts_model", hmin]
      simpa using hkee
    have hktts : keepStrip (.dict (deepMerge bt ttsOv))
        = some (.dict (stripDict (deepMerge bt ttsOv))) := keepStrip_dict_of_lookup hsin
    constructor
    · rw [strip_pyOr_path hndM hmtts hktts ["default_tts_model"]]
      simp [pathLookup, hsin]
    · rw [strip_pyOr_path hndM hmlang hklang [], pathLookup_nil]
  · -- base has no text_to_speech: the override's dict is taken as is
    have hmtts : lookup? (deepMerge base OV) "text_to_speech" = some (.dict ttsOv) := by
      have h1 := lookup?_deepMerge OV hndOV hovtts base
      rw [hnone, mergeVal_none] at h1
      exact h1
    have hsin : lookup? (stripDict ttsOv) "default_tts_model" = some (.str e') := by
      rw [lookup?_stripDict hndtts "default_tts_model", hxdtm]
      simpa using hkee
    have hktts : keepStrip (.dict ttsOv)
        = some (.dict (stripDict ttsOv)) := keepStrip_dict_of_lookup hsin
    constructor
    · rw [strip_pyOr_path hndM hmtts hktts ["default_tts_model"]]
      simp [pathLookup, hsin]
    · rw [strip_pyOr_path hndM hmlang hklang [], pathLookup_nil]

/-- C2 witness: `claim_C2_amended` on a base supplying only
`text_to_speech.default_tts_model = "openai"` and the request `{"text": "hi"}`:
the resolved output keeps the engine identifier and the defaulted output
language `"English"` although the request supplied neither. -/
theorem claim_C2_witness :
    (convoE (dictOf [("text_to_speech", .dict (.cons "default_tts_model" (.str "openai") .nil))])
        (.cons "text" (.str "hi") .nil)).map (fun C =>
        (pathLookup C ["text_to_speech", "default_tts_model"],
         pathLookup C ["output_language"]))
      = .ok (some (.str "openai"), some (.str "English")) := by
  exact claim_C2_amended
    (dictOf [("text_to_speech", .dict (.cons "default_tts_model" (.str "openai") .nil))])
    (.cons "text" (.str "hi") .nil)
    (.cons "default_tts_model" (.str "openai") .nil) "openai" "English"
    rfl (Or.inl rfl) rfl (by decide) rfl (by decide) rfl rfl (by decide) rfl

/-- C1 counterexample: the request `{"creativity": "abc"}` contains none of
the six content selectors, so by the claim resolution must signal the
input-validation failure; instead `float("abc")` raises during resolution and
the endpoint reports a plain server error, not the validation failure. -/
theorem claim_C1_counterexample :
    signalsInputValidation PyDict.nil (.cons "creativity" (.str "abc") .nil) = false
    ∧ exceptOk (resolveGpE PyDict.nil (.cons "creativity" (.str "abc") .nil)) = false
    ∧ stripEmpty (dget (.cons "creativity" (.str "abc") .nil) "urls") = PyVal.none
    ∧ stripEmpty (dget (.cons "creativity" (.str "abc") .nil) "url_file") = PyVal.none
    ∧ stripEmpty (dget (.cons "creativity" (.str "abc") .nil) "transcript_file") = PyVal.none
    ∧ stripEmpty (dget (.cons "creativity" (.str "abc") .nil) "image_paths") = PyVal.none
    ∧ stripEmpty (dget (.cons "creativity" (.str "abc") .nil) "text") = PyVal.none
    ∧ stripEmpty (dget (.cons "creativity" (.str "abc") .nil) "topic") = PyVal.none :=
  ⟨rfl, rfl, rfl, rfl, rfl, rfl, rfl, rfl⟩

set_option maxHeartbeats 1600000 in
/-- C1 (amended): the (spec-modelled) input-validation failure is signalled if
and only if resolution completes without an internal error and the request
contains none of the six content selectors non-empty (empty or
whitespace-only selector values strip away and count as absent); and for
every request whose keys are limited to the six selectors — so every other
optional field is merely omitted — resolution never raises, given any
well-shaped base configuration (`baseOkB`, satisfied by the empty fallback
document and by ordinary YAML configurations). -/
theorem claim_C1_amended (base data : PyDict) :
    (signalsInputValidation base data = true ↔
      (exceptOk (resolveGpE base data) = true
        ∧ ∀ k ∈ contentSelectorNames, stripEmpty (dget data k) = PyVal.none))
    ∧ (baseOkB base = true → onlySelectorsB data = true →
        exceptOk (resolveGpE base data) = true) := by
  refine ⟨?_, fun hb hd => resolveGpE_ok_of hb hd⟩
  cases hr : resolveGpE base data with
  | error err =>
    simp [signalsInputValidation, hr, exceptOk]
  | ok kw =>
    obtain ⟨convo, e, hconvo, he, hkw⟩ := resolveGpE_ok_elim hr
    have hnodup_gp : nodupKeys (gpDict data convo e) = true := by rfl
    have hkws : ∀ k, lookup? kw k = lookup? (stripDict (gpDict data convo e)) k := by
      intro k
      rw [hkw, stripEmpty_dict]
      cases hsd : stripDict (gpDict data convo e) with
      | nil => simp [lookup?]
      | cons a b c => rfl
    have hsel : ∀ k v, lookup? (gpDict data convo e) k = some v →
        (lookup? kw k = Option.none ↔ stripEmpty v = PyVal.none) := by
      intro k v hv
      rw [hkws k, lookup?_stripDict hnodup_gp k, hv]
      simp [keepStrip_eq_none]
    have h1 := hsel "urls" (dget data "urls") rfl
    have h2 := hsel "url_file" (dget data "url_file") rfl
    have h3 := hsel "transcript_file" (dget data "transcript_file") rfl
    have h4 := hsel "image_paths" (dget data "image_paths") rfl
    have h5 := hsel "text" (dget data "text") rfl
    have h6 := hsel "topic" (dget data "topic") rfl
    simp only [signalsInputValidation, hr, exceptOk, specValidationFails,
      Bool.and_eq_true, Option.isNone_iff_eq_none, contentSelectorNames,
      List.forall_mem_cons, List.forall_mem_nil, true_and, and_true]
    rw [h1, h2, h3, h4, h5, h6]
    tauto

/-- C1 witness: `claim_C1_amended` with the empty base: the selector-only
request `{"text": "hi"}` resolves without error and signals no validation
failure. -/
theorem claim_C1_witness :
    baseOkB PyDict.nil = true
    ∧ onlySelectorsB (.cons "text" (.str "hi") .nil) = true
    ∧ exceptOk (resolveGpE PyDict.nil (.cons "text" (.str "hi") .nil)) = true
    ∧ signalsInputValidation PyDict.nil (.cons "text" (.str "hi") .nil) = false :=
  ⟨rfl, rfl, (claim_C1_amended PyDict.nil (.cons "text" (.str "hi") .nil)).2 rfl rfl, rfl⟩

